import Mathlib

/-!
Verification of the credential cache/refresh core of `keyring_gcloud`.

The Python module is shallowly embedded: Python `str` values become `List Char`
(a Python string is a sequence of unicode code points), `bytes` become
`List Nat` (each element `< 256`), `datetime` becomes the `PyDatetime`
structure below, and code that can raise returns `Except PyErr _`.
The injected collaborators (the storage backend and the Google identity
provider) are modelled as records of their observable behaviour.
-/

/-- The Python exceptions the embedded code can raise. `external` stands for
an exception raised inside a collaborator (storage backend or identity
provider) and propagated through the core. -/
inductive PyErr where
  | valueError
  | typeError
  | unicodeEncodeError
  | unicodeDecodeError
  | assertionError
  | external (code : Nat)
deriving DecidableEq

instance instExceptDecidableEq {ε α : Type} [DecidableEq ε] [DecidableEq α] :
    DecidableEq (Except ε α) := fun x y =>
  match x, y with
  | .ok a, .ok b =>
    if h : a = b then .isTrue (by rw [h]) else .isFalse (by intro hc; cases hc; exact h rfl)
  | .ok _, .error _ => .isFalse (by intro hc; cases hc)
  | .error _, .ok _ => .isFalse (by intro hc; cases hc)
  | .error a, .error b =>
    if h : a = b then .isTrue (by rw [h]) else .isFalse (by intro hc; cases hc; exact h rfl)

/-- The character `%d` produces for a single decimal digit. -/
def digitChar : Nat → Char
  | 0 => '0' | 1 => '1' | 2 => '2' | 3 => '3' | 4 => '4'
  | 5 => '5' | 6 => '6' | 7 => '7' | 8 => '8' | 9 => '9'
  | _ => '?'

/-- Zero-padded two-digit decimal rendering (`%02d` for values `≤ 99`). -/
def pad2 (n : Nat) : List Char := [digitChar (n / 10), digitChar (n % 10)]

/-- Zero-padded four-digit decimal rendering (`%04d` for values `≤ 9999`). -/
def pad4 (n : Nat) : List Char :=
  [digitChar (n / 1000), digitChar (n / 100 % 10), digitChar (n / 10 % 10), digitChar (n % 10)]

/-- Zero-padded six-digit decimal rendering (`%06d` for values `≤ 999999`). -/
def pad6 (n : Nat) : List Char :=
  [digitChar (n / 100000), digitChar (n / 10000 % 10), digitChar (n / 1000 % 10),
   digitChar (n / 100 % 10), digitChar (n / 10 % 10), digitChar (n % 10)]

/-- Parse one decimal digit character by its code point. -/
def parseDigit (c : Char) : Option Nat :=
  if '0' ≤ c ∧ c ≤ '9' then some (c.toNat - 48) else none

/-- Parse two decimal digit characters as a number `≤ 99`. -/
def parse2 (a b : Char) : Option Nat :=
  match parseDigit a, parseDigit b with
  | some x, some y => some (10 * x + y)
  | _, _ => none

/-- Parse four decimal digit characters as a number `≤ 9999`. -/
def parse4 (a b c d : Char) : Option Nat :=
  match parse2 a b, parse2 c d with
  | some x, some y => some (100 * x + y)
  | _, _ => none

/-- Parse six decimal digit characters as a number `≤ 999999`. -/
def parse6 (a b c d e f : Char) : Option Nat :=
  match parse2 a b, parse2 c d, parse2 e f with
  | some x, some y, some z => some (10000 * x + 100 * y + z)
  | _, _, _ => none

/-- The standard base64 alphabet, by 6-bit value. -/
def b64Char (n : Nat) : Char :=
  if n < 26 then Char.ofNat (65 + n)
  else if n < 52 then Char.ofNat (71 + n)
  else if n < 62 then Char.ofNat (n - 4)
  else if n = 62 then '+' else '/'

/-- Membership in the standard base64 alphabet. -/
def isB64Char (c : Char) : Bool :=
  ('A' ≤ c && c ≤ 'Z') || ('a' ≤ c && c ≤ 'z') || ('0' ≤ c && c ≤ '9') || c = '+' || c = '/'

/-- The 6-bit value of a standard base64 alphabet character. -/
def b64Idx (c : Char) : Option Nat :=
  if 'A' ≤ c && c ≤ 'Z' then some (c.toNat - 65)
  else if 'a' ≤ c && c ≤ 'z' then some (c.toNat - 71)
  else if '0' ≤ c && c ≤ '9' then some (c.toNat + 4)
  else if c = '+' then some 62
  else if c = '/' then some 63
  else none

/-- `base64.b64encode` on a byte string (each byte `< 256`), producing the
padded base64 character sequence. -/
def b64encodeBytes : List Nat → List Char
  | [] => []
  | [a] => [b64Char (a / 4), b64Char (a % 4 * 16), '=', '=']
  | [a, b] => [b64Char (a / 4), b64Char (a % 4 * 16 + b / 16), b64Char (b % 16 * 4), '=']
  | a :: b :: c :: rest =>
    b64Char (a / 4) :: b64Char (a % 4 * 16 + b / 16) :: b64Char (b % 16 * 4 + c / 64) ::
      b64Char (c % 64) :: b64encodeBytes rest

/-- Decode a base64 character sequence quad by quad; padding is accepted only
in the final quad, and a length that is not a multiple of four is rejected
(`binascii.Error` in Python, surfaced as `none`). -/
def b64DecodeQuads : List Char → Option (List Nat)
  | [] => some []
  | c1 :: c2 :: c3 :: c4 :: rest =>
    match b64Idx c1, b64Idx c2 with
    | some v1, some v2 =>
      if c3 = '=' then
        if c4 = '=' ∧ rest = [] then some [v1 * 4 + v2 / 16] else none
      else
        match b64Idx c3 with
        | some v3 =>
          if c4 = '=' then
            if rest = [] then some [v1 * 4 + v2 / 16, v2 % 16 * 16 + v3 / 4] else none
          else
            match b64Idx c4 with
            | some v4 =>
              (b64DecodeQuads rest).map
                (fun bs => (v1 * 4 + v2 / 16) :: (v2 % 16 * 16 + v3 / 4) :: (v3 % 4 * 64 + v4) :: bs)
            | none => none
        | none => none
    | _, _ => none
  | _ => none

/-- `base64.b64decode` with `validate=False` (the default used by the code):
characters outside the base64 alphabet and `'='` are discarded before
decoding. -/
def pyB64Decode (cs : List Char) : Option (List Nat) :=
  b64DecodeQuads (cs.filter (fun c => isB64Char c || c = '='))

/-- `str.encode("ascii")`: succeeds iff every code point is `< 128`. -/
def asciiEncode (cs : List Char) : Option (List Nat) :=
  if cs.all (fun c => c.toNat < 128) then some (cs.map Char.toNat) else none

/-- `bytes.decode("ascii")`: succeeds iff every byte is `< 128`. -/
def asciiDecode (bs : List Nat) : Option (List Char) :=
  if bs.all (fun b => b < 128) then some (bs.map Char.ofNat) else none

/-- Helper for `pySplit`: prepend a character to the first piece. -/
def consHead (x : Char) : List (List Char) → List (List Char)
  | [] => [[x]]
  | h :: t => (x :: h) :: t

/-- Python `str.split(sep)` for a one-character separator: splits at every
occurrence of the separator. -/
def pySplit (c : Char) : List Char → List (List Char)
  | [] => [[]]
  | x :: xs => if x = c then [] :: pySplit c xs else consHead x (pySplit c xs)

/-- Split at the first occurrence of a separator only (the operation the
specification's decode algorithm describes); `none` when the separator does
not occur. -/
def breakFirst (c : Char) : List Char → Option (List Char × List Char)
  | [] => none
  | x :: xs =>
    if x = c then some ([], xs)
    else (breakFirst c xs).map (fun p => (x :: p.1, p.2))

/-- A Python `datetime.datetime`: Gregorian calendar fields plus an optional
fixed UTC offset in minutes (`None` = a naive datetime). The code only ever
constructs offsets that are whole minutes (`timezone.utc` and offsets parsed
from `±HH:MM`), so the embedding restricts `tzinfo` to minute-valued offsets. -/
structure PyDatetime where
  year : Nat
  month : Nat
  day : Nat
  hour : Nat
  minute : Nat
  second : Nat
  microsecond : Nat
  tzOffsetMinutes : Option Int
deriving DecidableEq

/-- Number of days in a month of the proleptic Gregorian calendar. -/
def daysInMonth (y m : Nat) : Nat :=
  if m = 2 then (if y % 4 = 0 ∧ (y % 100 ≠ 0 ∨ y % 400 = 0) then 29 else 28)
  else if m = 4 ∨ m = 6 ∨ m = 9 ∨ m = 11 then 30
  else 31

/-- Days since 0000-03-01 of a Gregorian date (Hinnant's `days_from_civil`,
shifted so the count stays in `Nat` for every year `≥ 1`). -/
def daysFromCivil (y m d : Nat) : Nat :=
  let y' := if m ≤ 2 then y - 1 else y
  let era := y' / 400
  let yoe := y' % 400
  let mp := if m ≤ 2 then m + 9 else m - 3
  let doy := (153 * mp + 2) / 5 + (d - 1)
  era * 146097 + (yoe * 365 + yoe / 4 - yoe / 100 + doy)

/-- Gregorian date of a day count since 0000-03-01 (Hinnant's
`civil_from_days`). -/
def civilFromDays (z : Nat) : Nat × Nat × Nat :=
  let era := z / 146097
  let doe := z % 146097
  let yoe := (doe - doe / 1460 + doe / 36524 - doe / 146096) / 365
  let y' := yoe + era * 400
  let doy := doe - (365 * yoe + yoe / 4 - yoe / 100)
  let mp := (5 * doy + 2) / 153
  let dd := doy - (153 * mp + 2) / 5 + 1
  let m := if mp < 10 then mp + 3 else mp - 9
  (if m ≤ 2 then y' + 1 else y', m, dd)

/-- The naive clock reading of a datetime, in microseconds since
0000-03-01T00:00:00 (ignoring any UTC offset, exactly as Python's
field-by-field view does). -/
def PyDatetime.naiveTicks (d : PyDatetime) : Nat :=
  (((daysFromCivil d.year d.month d.day * 24 + d.hour) * 60 + d.minute) * 60 + d.second)
      * 1000000 + d.microsecond

/-- The instant of an aware datetime, in microseconds: clock reading minus the
UTC offset. -/
def PyDatetime.awareTicks (d : PyDatetime) (off : Int) : Int :=
  (d.naiveTicks : Int) - off * 60000000

/-- Python's `>=` on datetimes: naive and aware values do not compare
(`TypeError`); two naive values compare by clock reading, two aware values by
instant. -/
def pyGE (a b : PyDatetime) : Except PyErr Bool :=
  match a.tzOffsetMinutes, b.tzOffsetMinutes with
  | none, none => .ok (decide (a.naiveTicks ≥ b.naiveTicks))
  | some oa, some ob => .ok (decide (a.awareTicks oa ≥ b.awareTicks ob))
  | _, _ => .error .typeError

/-- `d + timedelta(minutes=mins)`: timedelta addition acts on the clock
fields and leaves `tzinfo` untouched. -/
def PyDatetime.addMinutes (d : PyDatetime) (mins : Nat) : PyDatetime :=
  let t := d.naiveTicks + mins * 60000000
  let us := t % 1000000
  let ts := t / 1000000
  let s := ts % 60
  let tm := ts / 60
  let mi := tm % 60
  let th := tm / 60
  let h := th % 24
  let days := th / 24
  let c := civilFromDays days
  ⟨c.1, c.2.1, c.2.2, h, mi, s, us, d.tzOffsetMinutes⟩

/-- `datetime.isoformat()`: `YYYY-MM-DDTHH:MM:SS`, with `.ffffff` appended
when the microsecond field is nonzero and `±HH:MM` appended when the value is
aware. -/
def PyDatetime.isoformat (d : PyDatetime) : List Char :=
  pad4 d.year ++ '-' :: pad2 d.month ++ '-' :: pad2 d.day ++
    'T' :: pad2 d.hour ++ ':' :: pad2 d.minute ++ ':' :: pad2 d.second ++
    (if d.microsecond = 0 then [] else '.' :: pad6 d.microsecond) ++
    (match d.tzOffsetMinutes with
     | none => []
     | some off =>
       (if off < 0 then '-' else '+') :: pad2 (off.natAbs / 60) ++ ':' :: pad2 (off.natAbs % 60))

/-- Parse the `±HH:MM` (or `Z`, or empty) UTC-offset suffix accepted by
`datetime.fromisoformat`. The embedding covers the offset shapes
`isoformat` itself produces plus `Z`. -/
def parseTz : List Char → Option (Option Int)
  | [] => some none
  | ['Z'] => some (some 0)
  | [sgn, a, b, ':', c, e] =>
    match parse2 a b, parse2 c e with
    | some hh, some mm =>
      if hh ≤ 23 ∧ mm ≤ 59 then
        match sgn with
        | '+' => some (some ((hh * 60 + mm : Nat) : Int))
        | '-' => some (some (-((hh * 60 + mm : Nat) : Int)))
        | _ => none
      else none
    | _, _ => none
  | _ => none

/-- Parse the optional `.ffffff` fraction followed by the UTC-offset suffix. -/
def parseFracTz : List Char → Option (Nat × Option Int)
  | '.' :: f1 :: f2 :: f3 :: f4 :: f5 :: f6 :: rest =>
    match parse6 f1 f2 f3 f4 f5 f6, parseTz rest with
    | some us, some tz => some (us, tz)
    | _, _ => none
  | rest =>
    match parseTz rest with
    | some tz => some (0, tz)
    | none => none

/-- `datetime.fromisoformat`: the embedding accepts the shapes `isoformat`
produces — `YYYY-MM-DD`, optionally followed by a one-character separator and
`HH:MM:SS[.ffffff][±HH:MM|Z]` — and range-checks every field exactly as the
`datetime` constructor does. Anything else is a `ValueError`, surfaced as
`none`. -/
def parseIso (l : List Char) : Option PyDatetime :=
  match l with
  | y1 :: y2 :: y3 :: y4 :: '-' :: m1 :: m2 :: '-' :: d1 :: d2 :: rest =>
    match parse4 y1 y2 y3 y4, parse2 m1 m2, parse2 d1 d2 with
    | some y, some mo, some dd =>
      if 1 ≤ y ∧ 1 ≤ mo ∧ mo ≤ 12 ∧ 1 ≤ dd ∧ dd ≤ daysInMonth y mo then
        match rest with
        | [] => some ⟨y, mo, dd, 0, 0, 0, 0, none⟩
        | _sep :: h1 :: h2 :: ':' :: n1 :: n2 :: ':' :: s1 :: s2 :: rest2 =>
          match parse2 h1 h2, parse2 n1 n2, parse2 s1 s2 with
          | some h, some mi, some s =>
            if h ≤ 23 ∧ mi ≤ 59 ∧ s ≤ 59 then
              match parseFracTz rest2 with
              | some (us, tz) => some ⟨y, mo, dd, h, mi, s, us, tz⟩
              | none => none
            else none
          | _, _, _ => none
        | _ => none
      else none
    | _, _, _ => none
  | _ => none

/-- Validity of an optional UTC offset: Python's `timezone` requires a
strict bound of one day; minute-valued offsets printable as `±HH:MM` are
those of magnitude `≤ 1439` minutes. -/
def tzOk : Option Int → Prop
  | none => True
  | some off => off.natAbs ≤ 1439

instance instTzOkDecidable : (o : Option Int) → Decidable (tzOk o)
  | none => .isTrue trivial
  | some off => inferInstanceAs (Decidable (off.natAbs ≤ 1439))

/-- The field invariant every Python `datetime` object satisfies (enforced by
the `datetime` constructor). -/
def PyDatetime.IsValid (d : PyDatetime) : Prop :=
  1 ≤ d.year ∧ d.year ≤ 9999 ∧ 1 ≤ d.month ∧ d.month ≤ 12 ∧
    1 ≤ d.day ∧ d.day ≤ daysInMonth d.year d.month ∧
    d.hour ≤ 23 ∧ d.minute ≤ 59 ∧ d.second ≤ 59 ∧ d.microsecond ≤ 999999 ∧
    tzOk d.tzOffsetMinutes

instance instPyDatetimeIsValidDecidable (d : PyDatetime) : Decidable d.IsValid := by
  unfold PyDatetime.IsValid
  infer_instance

/-- The in-memory credential record (`@dataclass GoogleCredential`): both
fields default to absent. -/
structure GoogleCredential where
  token : Option (List Char) := none
  expiry : Option PyDatetime := none
deriving DecidableEq

/-- The `valid` property: `token is not None and expiry is not None and
expiry >= datetime.now(timezone.utc)`, with Python's short-circuit `and`.
Evaluating the comparison can raise (naive vs. aware), hence the `Except`. -/
def GoogleCredential.valid (c : GoogleCredential) (now : PyDatetime) : Except PyErr Bool :=
  match c.token with
  | none => .ok false
  | some _ =>
    match c.expiry with
    | none => .ok false
    | some e => pyGE e now

/-- The body of `from_encoded`'s `try:` block applied to the two pieces of the
split: base64-decode and ASCII-decode the expiry piece, parse it as ISO-8601,
then base64-decode and ASCII-decode the token piece. -/
def decodePairExc (ePart tPart : List Char) : Except PyErr GoogleCredential :=
  match pyB64Decode ePart with
  | none => .error .valueError
  | some expiryBytes =>
    match asciiDecode expiryBytes with
    | none => .error .unicodeDecodeError
    | some expiryStr =>
      match parseIso expiryStr with
      | none => .error .valueError
      | some expiry =>
        match pyB64Decode tPart with
        | none => .error .valueError
        | some tokenBytes =>
          match asciiDecode tokenBytes with
          | none => .error .unicodeDecodeError
          | some token => .ok ⟨some token, some expiry⟩

/-- The `try:` block of `GoogleCredential.from_encoded`: assert the input is
truthy, split on every `':'` and require exactly two pieces (the two-variable
unpacking raises `ValueError` otherwise), then decode the pieces. -/
def from_encodedExc (enc : Option (List Char)) : Except PyErr GoogleCredential :=
  match enc with
  | none => .error .assertionError
  | some cs =>
    if cs.isEmpty then .error .assertionError
    else
      match pySplit ':' cs with
      | [ePart, tPart] => decodePairExc ePart tPart
      | _ => .error .valueError

/-- `GoogleCredential.from_encoded`: the `except Exception` handler turns any
failure into the empty record. -/
def GoogleCredential.from_encoded (enc : Option (List Char)) : GoogleCredential :=
  match from_encodedExc enc with
  | .ok c => c
  | .error _ => ⟨none, none⟩

/-- Decoding as the specification's words describe it (§4.1): split at the
FIRST `':'` into exactly two parts, then run the same base64/ISO pipeline;
any failure (including an absent input) yields the empty record. Kept beside
`GoogleCredential.from_encoded` to compare the code with the spec. -/
def decodeSpec (enc : Option (List Char)) : GoogleCredential :=
  match enc with
  | none => ⟨none, none⟩
  | some cs =>
    match breakFirst ':' cs with
    | none => ⟨none, none⟩
    | some (ePart, tPart) =>
      match decodePairExc ePart tPart with
      | .ok c => c
      | .error _ => ⟨none, none⟩

/-- `GoogleCredential.encode`: `None` when the token is absent; asserts the
expiry is present; ASCII-encoding the token raises `UnicodeEncodeError` on a
non-ASCII code point; result is `<base64(expiry.isoformat())>:<base64(token)>`. -/
def GoogleCredential.encode (c : GoogleCredential) : Except PyErr (Option (List Char)) :=
  match c.token with
  | none => .ok none
  | some tok =>
    match c.expiry with
    | none => .error .assertionError
    | some e =>
      match asciiEncode tok with
      | none => .error .unicodeEncodeError
      | some tokBytes =>
        match asciiEncode e.isoformat with
        | none => .error .unicodeEncodeError
        | some expBytes => .ok (some (b64encodeBytes expBytes ++ ':' :: b64encodeBytes tokBytes))

/-- The observable behaviour of the `google.auth` credentials object returned
by `google.auth.default()`: whether it reports itself expired, the outcome of
`credentials.refresh(Request())`, and the token visible afterwards
(`credentials.token` is `Optional[str]`). -/
structure ProviderCreds where
  expired : Bool
  refreshResult : Except PyErr Unit
  token : Option (List Char)

/-- The identity-provider collaborator: the outcome of `google.auth.default()`. -/
structure IdentityProvider where
  defaultResult : Except PyErr ProviderCreds

/-- Minutes in `default_expiry = timedelta(minutes=55)`. -/
def defaultExpiryMinutes : Nat := 55

/-- `GoogleCredential.refresh`: obtain the provider credentials, refresh them
at provider level if they report expired, then overwrite the record with the
provider's token and `now + default_expiry`. The result is independent of the
record being refreshed, so it is returned as a fresh record. -/
def GoogleCredential.refresh (p : IdentityProvider) (now : PyDatetime) :
    Except PyErr GoogleCredential :=
  match p.defaultResult with
  | .error e => .error e
  | .ok creds =>
    if creds.expired then
      match creds.refreshResult with
      | .error e => .error e
      | .ok _ => .ok ⟨creds.token, some (now.addMinutes defaultExpiryMinutes)⟩
    else .ok ⟨creds.token, some (now.addMinutes defaultExpiryMinutes)⟩

/-- The storage collaborator (`self.backend`): its current contents, keyed by
(service, username), and the outcome of a `set_password` attempt on it. -/
structure Backend where
  store : List Char → List Char → Option (List Char)
  setResult : Except PyErr Unit

/-- The backend with one stored value replaced. -/
def Backend.withStored (b : Backend) (service username secret : List Char) : Backend :=
  { b with
    store := fun s u => if s = service ∧ u = username then some secret else b.store s u }

/-- `backend.set_password`: on success the stored value is replaced; a raised
exception leaves the store unchanged and propagates. -/
def Backend.set_password (b : Backend) (service username secret : List Char) :
    Except PyErr Unit × Backend :=
  match b.setResult with
  | .error e => (.error e, b)
  | .ok _ => (.ok (), b.withStored service username secret)

/-- The environment variables `_should_intercept` consults. -/
structure Env where
  keyringGcloudOn : Option (List Char)
  keyringGcloudUsername : Option (List Char)

/-- `GoogleCloudKeyring._should_intercept`: intercept when the first
environment variable is set non-empty, else when the username equals the
configured special username (default `"oauth2accesstoken"`). -/
def shouldIntercept (env : Env) (_service username : List Char) : Bool :=
  if (env.keyringGcloudOn.getD []).length > 0 then true
  else decide (username = env.keyringGcloudUsername.getD "oauth2accesstoken".toList)

/-- `GoogleCloudKeyring.get_password`: read the stored secret; pass it through
when not intercepting; otherwise decode it, take the fast path when the record
is valid, and otherwise refresh, write the encoded record back when encoding
yields a truthy string, and return the record's token. Exceptions from the
validity check, the provider, encoding, or the storage write all propagate. -/
def get_password (env : Env) (b : Backend) (p : IdentityProvider) (now : PyDatetime)
    (service username : List Char) : Except PyErr (Option (List Char)) × Backend :=
  let secret := b.store service username
  if shouldIntercept env service username then
    let cred := GoogleCredential.from_encoded secret
    match cred.valid now with
    | .error e => (.error e, b)
    | .ok true => (.ok cred.token, b)
    | .ok false =>
      match GoogleCredential.refresh p now with
      | .error e => (.error e, b)
      | .ok cred' =>
        match cred'.encode with
        | .error e => (.error e, b)
        | .ok none => (.ok cred'.token, b)
        | .ok (some enc) =>
          if enc.length > 0 then
            match b.set_password service username enc with
            | (.error e, b1) => (.error e, b1)
            | (.ok _, b1) => (.ok cred'.token, b1)
          else (.ok cred'.token, b)
  else (.ok secret, b)

/-- `GoogleCloudKeyring.set_password`: when intercepting, wrap the supplied
password in a record stamped `now + default_expiry` and store its encoding if
truthy (falling back to the raw password otherwise); encoding exceptions
propagate. When not intercepting, store the raw password. -/
def set_password (env : Env) (b : Backend) (now : PyDatetime)
    (service username password : List Char) : Except PyErr Unit × Backend :=
  if shouldIntercept env service username then
    match (GoogleCredential.mk (some password)
        (some (now.addMinutes defaultExpiryMinutes))).encode with
    | .error e => (.error e, b)
    | .ok none => b.set_password service username password
    | .ok (some enc) =>
      if enc.length > 0 then b.set_password service username enc
      else b.set_password service username password
  else b.set_password service username password

theorem parseDigit_digitChar (n : Nat) (h : n ≤ 9) : parseDigit (digitChar n) = some n := by
  interval_cases n <;> rfl

theorem digitChar_ascii (n : Nat) : (digitChar n).toNat < 128 := by
  unfold digitChar
  split <;> decide

theorem parse2_digitChar (a b : Nat) (ha : a ≤ 9) (hb : b ≤ 9) :
    parse2 (digitChar a) (digitChar b) = some (10 * a + b) := by
  rw [parse2, parseDigit_digitChar a ha, parseDigit_digitChar b hb]

theorem parse2_pad2 (n : Nat) (h : n ≤ 99) :
    parse2 (digitChar (n / 10)) (digitChar (n % 10)) = some n := by
  rw [parse2_digitChar _ _ (by omega) (by omega)]
  congr 1
  omega

theorem parse4_pad4 (n : Nat) (h : n ≤ 9999) :
    parse4 (digitChar (n / 1000)) (digitChar (n / 100 % 10)) (digitChar (n / 10 % 10))
      (digitChar (n % 10)) = some n := by
  rw [parse4, parse2_digitChar _ _ (by omega) (by omega),
    parse2_digitChar _ _ (by omega) (by omega)]
  simp only [Option.some.injEq]
  omega

theorem parse6_pad6 (n : Nat) (h : n ≤ 999999) :
    parse6 (digitChar (n / 100000)) (digitChar (n / 10000 % 10)) (digitChar (n / 1000 % 10))
      (digitChar (n / 100 % 10)) (digitChar (n / 10 % 10)) (digitChar (n % 10)) = some n := by
  rw [parse6, parse2_digitChar _ _ (by omega) (by omega),
    parse2_digitChar _ _ (by omega) (by omega), parse2_digitChar _ _ (by omega) (by omega)]
  simp only [Option.some.injEq]
  omega

theorem b64Idx_b64Char : ∀ n, n < 64 → b64Idx (b64Char n) = some n := by decide

theorem b64Char_ne_pad : ∀ n, n < 64 → b64Char n ≠ '=' := by decide

theorem b64Char_ne_colon : ∀ n, n < 64 → b64Char n ≠ ':' := by decide

theorem isB64Char_b64Char : ∀ n, n < 64 → (isB64Char (b64Char n) || b64Char n = '=') = true := by
  decide

theorem mem_b64encodeBytes (bs : List Nat) (hbs : ∀ b ∈ bs, b < 256) :
    ∀ c ∈ b64encodeBytes bs, (isB64Char c || c = '=') = true := by
  induction bs using b64encodeBytes.induct with
  | case1 => intro c hc; cases hc
  | case2 a =>
    have ha := hbs a (by simp)
    intro c hc
    rw [b64encodeBytes] at hc
    simp only [List.mem_cons, List.mem_singleton] at hc
    rcases hc with h | h | h | h | h
    · exact h ▸ isB64Char_b64Char _ (by omega)
    · exact h ▸ isB64Char_b64Char _ (by omega)
    · simp [h]
    · simp [h]
    · cases h
  | case3 a b =>
    have ha := hbs a (by simp)
    have hb := hbs b (by simp)
    intro c hc
    rw [b64encodeBytes] at hc
    simp only [List.mem_cons, List.mem_singleton] at hc
    rcases hc with h | h | h | h | h
    · exact h ▸ isB64Char_b64Char _ (by omega)
    · exact h ▸ isB64Char_b64Char _ (by omega)
    · exact h ▸ isB64Char_b64Char _ (by omega)
    · simp [h]
    · cases h
  | case4 a b c rest ih =>
    have ha := hbs a (by simp)
    have hb := hbs b (by simp)
    have hc' := hbs c (by simp)
    intro x hx
    rw [b64encodeBytes] at hx
    simp only [List.mem_cons] at hx
    rcases hx with h | h | h | h | h
    · exact h ▸ isB64Char_b64Char _ (by omega)
    · exact h ▸ isB64Char_b64Char _ (by omega)
    · exact h ▸ isB64Char_b64Char _ (by omega)
    · exact h ▸ isB64Char_b64Char _ (by omega)
    · exact ih (fun y hy => hbs y (by simp [hy])) x h

theorem filter_b64encodeBytes (bs : List Nat) (hbs : ∀ b ∈ bs, b < 256) :
    (b64encodeBytes bs).filter (fun c => isB64Char c || c = '=') = b64encodeBytes bs :=
  List.filter_eq_self.mpr (mem_b64encodeBytes bs hbs)

theorem colon_not_mem_b64encodeBytes (bs : List Nat) (hbs : ∀ b ∈ bs, b < 256) :
    ':' ∉ b64encodeBytes bs := by
  intro hmem
  have := mem_b64encodeBytes bs hbs ':' hmem
  simp [isB64Char] at this

theorem b64DecodeQuads_encode (bs : List Nat) (hbs : ∀ b ∈ bs, b < 256) :
    b64DecodeQuads (b64encodeBytes bs) = some bs := by
  induction bs using b64encodeBytes.induct with
  | case1 => rfl
  | case2 a =>
    have ha := hbs a (by simp)
    have e1 := b64Idx_b64Char (a / 4) (by omega)
    have e2 := b64Idx_b64Char (a % 4 * 16) (by omega)
    simp only [b64encodeBytes, b64DecodeQuads, e1, e2]
    simp
    omega
  | case3 a b =>
    have ha := hbs a (by simp)
    have hb := hbs b (by simp)
    have e1 := b64Idx_b64Char (a / 4) (by omega)
    have e2 := b64Idx_b64Char (a % 4 * 16 + b / 16) (by omega)
    have e3 := b64Idx_b64Char (b % 16 * 4) (by omega)
    have hne := b64Char_ne_pad (b % 16 * 4) (by omega)
    simp only [b64encodeBytes, b64DecodeQuads, e1, e2, e3, if_neg hne]
    simp
    omega
  | case4 a b c rest ih =>
    have ha := hbs a (by simp)
    have hb := hbs b (by simp)
    have hc := hbs c (by simp)
    have e1 := b64Idx_b64Char (a / 4) (by omega)
    have e2 := b64Idx_b64Char (a % 4 * 16 + b / 16) (by omega)
    have e3 := b64Idx_b64Char (b % 16 * 4 + c / 64) (by omega)
    have e4 := b64Idx_b64Char (c % 64) (by omega)
    have hne3 := b64Char_ne_pad (b % 16 * 4 + c / 64) (by omega)
    have hne4 := b64Char_ne_pad (c % 64) (by omega)
    have hrest := ih (fun y hy => hbs y (by simp [hy]))
    simp only [b64encodeBytes, b64DecodeQuads, e1, e2, e3, e4, if_neg hne3, if_neg hne4, hrest]
    simp
    omega

theorem pyB64Decode_encode (bs : List Nat) (hbs : ∀ b ∈ bs, b < 256) :
    pyB64Decode (b64encodeBytes bs) = some bs := by
  rw [pyB64Decode, filter_b64encodeBytes bs hbs, b64DecodeQuads_encode bs hbs]

theorem asciiEncode_eq_some (cs : List Char) (h : cs.all (fun c => c.toNat < 128) = true) :
    asciiEncode cs = some (cs.map Char.toNat) := by
  rw [asciiEncode, if_pos h]

theorem asciiDecode_map_toNat (cs : List Char) (h : cs.all (fun c => c.toNat < 128) = true) :
    asciiDecode (cs.map Char.toNat) = some cs := by
  have hall : (cs.map Char.toNat).all (fun b => decide (b < 128)) = true := by
    rw [List.all_eq_true]
    intro b hb
    rw [List.mem_map] at hb
    obtain ⟨c, hc, rfl⟩ := hb
    rw [List.all_eq_true] at h
    exact h c hc
  rw [asciiDecode, if_pos hall, List.map_map]
  congr 1
  rw [show (Char.ofNat ∘ Char.toNat) = id from funext Char.ofNat_toNat, List.map_id]

theorem map_toNat_lt_256 (cs : List Char) (h : cs.all (fun c => c.toNat < 128) = true) :
    ∀ b ∈ cs.map Char.toNat, b < 256 := by
  intro b hb
  rw [List.mem_map] at hb
  obtain ⟨c, hc, rfl⟩ := hb
  rw [List.all_eq_true] at h
  have := h c hc
  simp only [decide_eq_true_eq] at this
  omega

theorem pySplit_ne_nil (c : Char) (l : List Char) : pySplit c l ≠ [] := by
  induction l with
  | nil => simp [pySplit]
  | cons x xs ih =>
    rw [pySplit]
    split
    · simp
    · match h : pySplit c xs with
      | [] => exact absurd h ih
      | h' :: t => simp [consHead]

theorem consHead_length (x : Char) (l : List (List Char)) (h : l ≠ []) :
    (consHead x l).length = l.length := by
  match l with
  | [] => exact absurd rfl h
  | a :: t => rfl

theorem pySplit_length (c : Char) (l : List Char) :
    (pySplit c l).length = l.count c + 1 := by
  induction l with
  | nil => rfl
  | cons x xs ih =>
    rw [pySplit]
    by_cases hx : x = c
    · rw [if_pos hx, List.length_cons, ih, List.count_cons]
      simp [hx]
    · rw [if_neg hx, consHead_length x _ (pySplit_ne_nil c xs), ih, List.count_cons]
      simp [hx]

theorem pySplit_no_sep (c : Char) (l : List Char) (h : c ∉ l) : pySplit c l = [l] := by
  induction l with
  | nil => rfl
  | cons x xs ih =>
    have hx : ¬ x = c := fun hxc => h (by rw [← hxc]; exact List.mem_cons_self x xs)
    rw [pySplit, if_neg hx, ih (fun hm => h (List.mem_cons_of_mem x hm))]
    rfl

theorem pySplit_around_sep (c : Char) (A B : List Char) (hA : c ∉ A) (hB : c ∉ B) :
    pySplit c (A ++ c :: B) = [A, B] := by
  induction A with
  | nil => simp [pySplit, pySplit_no_sep c B hB]
  | cons x xs ih =>
    have hx : ¬ x = c := fun hxc => hA (by rw [← hxc]; exact List.mem_cons_self x xs)
    rw [List.cons_append, pySplit, if_neg hx, ih (fun hm => hA (List.mem_cons_of_mem x hm))]
    rfl

theorem pySplit_singleton (c : Char) (l b : List Char) (h : pySplit c l = [b]) : l = b := by
  induction l generalizing b with
  | nil =>
    simp only [pySplit, List.cons.injEq, and_true] at h
    exact h
  | cons x xs ih =>
    rw [pySplit] at h
    by_cases hx : x = c
    · rw [if_pos hx] at h
      simp only [List.cons.injEq] at h
      exact absurd h.2 (pySplit_ne_nil c xs)
    · rw [if_neg hx] at h
      rcases hs : pySplit c xs with _ | ⟨h', t⟩
      · exact absurd hs (pySplit_ne_nil c xs)
      · rw [hs, consHead] at h
        simp only [List.cons.injEq] at h
        obtain ⟨hxb, ht⟩ := h
        subst ht
        rw [← hxb, ih h' hs]

theorem pySplit_pair_breakFirst (c : Char) (l a b : List Char)
    (h : pySplit c l = [a, b]) : breakFirst c l = some (a, b) := by
  induction l generalizing a with
  | nil => simp [pySplit] at h
  | cons x xs ih =>
    rw [pySplit] at h
    rw [breakFirst]
    by_cases hx : x = c
    · rw [if_pos hx] at h
      rw [if_pos hx]
      simp only [List.cons.injEq] at h
      obtain ⟨rfl, h2⟩ := h
      have : xs = b := pySplit_singleton c xs b h2
      rw [this]
    · rw [if_neg hx] at h
      rw [if_neg hx]
      rcases hs : pySplit c xs with _ | ⟨h', t⟩
      · exact absurd hs (pySplit_ne_nil c xs)
      · rw [hs, consHead] at h
        simp only [List.cons.injEq] at h
        obtain ⟨hxa, ht⟩ := h
        subst ht
        rw [ih h' hs, ← hxa]
        rfl

theorem pad2_ascii (n : Nat) : (pad2 n).all (fun c => c.toNat < 128) = true := by
  rw [pad2]
  simp only [List.all_cons, List.all_nil, Bool.and_true, Bool.and_eq_true, decide_eq_true_eq]
  exact ⟨digitChar_ascii _, digitChar_ascii _⟩

theorem pad4_ascii (n : Nat) : (pad4 n).all (fun c => c.toNat < 128) = true := by
  rw [pad4]
  simp only [List.all_cons, List.all_nil, Bool.and_true, Bool.and_eq_true, decide_eq_true_eq]
  exact ⟨digitChar_ascii _, digitChar_ascii _, digitChar_ascii _, digitChar_ascii _⟩

theorem pad6_ascii (n : Nat) : (pad6 n).all (fun c => c.toNat < 128) = true := by
  rw [pad6]
  simp only [List.all_cons, List.all_nil, Bool.and_true, Bool.and_eq_true, decide_eq_true_eq]
  exact ⟨digitChar_ascii _, digitChar_ascii _, digitChar_ascii _, digitChar_ascii _,
    digitChar_ascii _, digitChar_ascii _⟩

theorem ite_sign_ascii (off : Int) : ((if off < 0 then '-' else '+') : Char).toNat < 128 := by
  split <;> decide

set_option maxHeartbeats 1000000 in
theorem isoformat_ascii (d : PyDatetime) :
    d.isoformat.all (fun c => c.toNat < 128) = true := by
  have hdash : ('-').toNat < 128 := by decide
  have hT : ('T').toNat < 128 := by decide
  have hcolon : (':').toNat < 128 := by decide
  have hdot : ('.').toNat < 128 := by decide
  rw [PyDatetime.isoformat]
  simp only [List.all_append, List.all_cons, Bool.and_eq_true, decide_eq_true_eq]
  repeat' apply And.intro
  all_goals try (first
    | exact pad4_ascii _
    | exact pad2_ascii _
    | exact hdash
    | exact hT
    | exact hcolon)
  all_goals split
  all_goals try rfl
  all_goals simp only [List.all_cons, List.all_append, Bool.and_eq_true, decide_eq_true_eq]
  all_goals repeat' apply And.intro
  all_goals
    first
    | exact digitChar_ascii _
    | exact ite_sign_ascii _
    | exact pad2_ascii _
    | exact pad6_ascii _
    | exact hdot
    | exact hcolon

theorem parseTz_pad_neg (off : Int) (h : off.natAbs ≤ 1439) (hneg : off < 0) :
    parseTz ['-', digitChar (off.natAbs / 60 / 10), digitChar (off.natAbs / 60 % 10), ':',
      digitChar (off.natAbs % 60 / 10), digitChar (off.natAbs % 60 % 10)] =
      some (some off) := by
  rw [parseTz, parse2_pad2 _ (by omega), parse2_pad2 _ (by omega)]
  dsimp only
  rw [if_pos ⟨by omega, by omega⟩]
  simp only [Option.some.injEq]
  omega

theorem parseTz_pad_pos (off : Int) (h : off.natAbs ≤ 1439) (hpos : ¬ off < 0) :
    parseTz ['+', digitChar (off.natAbs / 60 / 10), digitChar (off.natAbs / 60 % 10), ':',
      digitChar (off.natAbs % 60 / 10), digitChar (off.natAbs % 60 % 10)] =
      some (some off) := by
  rw [parseTz, parse2_pad2 _ (by omega), parse2_pad2 _ (by omega)]
  dsimp only
  rw [if_pos ⟨by omega, by omega⟩]
  simp only [Option.some.injEq]
  omega

theorem parseFracTz_dash (r : List Char) :
    parseFracTz ('-' :: r) = match parseTz ('-' :: r) with
      | some tz => some (0, tz)
      | none => none := rfl

theorem parseFracTz_plus (r : List Char) :
    parseFracTz ('+' :: r) = match parseTz ('+' :: r) with
      | some tz => some (0, tz)
      | none => none := rfl

theorem daysInMonth_le_31 (y m : Nat) : daysInMonth y m ≤ 31 := by
  rw [daysInMonth]
  split
  · split <;> omega
  · split <;> omega

theorem parseIso_isoformat (d : PyDatetime) (hv : d.IsValid) :
    parseIso d.isoformat = some d := by
  obtain ⟨y, mo, dd, hh, mi, ss, us, tz⟩ := d
  simp only [PyDatetime.IsValid, tzOk] at hv
  obtain ⟨h1, h2, h3, h4, h5, h6, h7, h8, h9, h10, h11⟩ := hv
  rw [PyDatetime.isoformat]
  simp only [pad4, pad2, pad6, List.cons_append, List.nil_append, List.append_assoc]
  rw [parseIso]
  rw [parse4_pad4 y h2, parse2_pad2 mo (by omega), parse2_pad2 dd (by have := daysInMonth_le_31 y mo; omega)]
  dsimp only
  rw [if_pos ⟨h1, h3, h4, h5, h6⟩]
  conv_lhs => whnf
  rw [parse2_pad2 hh (by omega), parse2_pad2 mi (by omega), parse2_pad2 ss (by omega)]
  dsimp only
  rw [if_pos ⟨h7, h8, h9⟩]
  rcases tz with _ | off
  · by_cases hus : us = 0
    · subst hus
      rw [if_pos rfl]
      rfl
    · rw [if_neg hus]
      simp only [List.cons_append, List.nil_append, List.append_nil]
      rw [parseFracTz, parse6_pad6 us h10]
      rfl
  · have hoff : off.natAbs ≤ 1439 := h11
    by_cases hus : us = 0
    · subst hus
      rw [if_pos rfl]
      simp only [List.nil_append]
      by_cases hneg : off < 0
      · rw [if_pos hneg, parseFracTz_dash, parseTz_pad_neg off hoff hneg]
      · rw [if_neg hneg, parseFracTz_plus, parseTz_pad_pos off hoff hneg]
    · rw [if_neg hus]
      simp only [List.cons_append, List.nil_append]
      by_cases hneg : off < 0
      · rw [if_pos hneg, parseFracTz, parse6_pad6 us h10, parseTz_pad_neg off hoff hneg]
      · rw [if_neg hneg, parseFracTz, parse6_pad6 us h10, parseTz_pad_pos off hoff hneg]

theorem encode_pair (tok : List Char) (e : PyDatetime)
    (hascii : tok.all (fun c => c.toNat < 128) = true) :
    (GoogleCredential.mk (some tok) (some e)).encode =
      .ok (some (b64encodeBytes (e.isoformat.map Char.toNat) ++ ':' ::
        b64encodeBytes (tok.map Char.toNat))) := by
  rw [GoogleCredential.encode]
  dsimp only
  rw [asciiEncode_eq_some tok hascii, asciiEncode_eq_some _ (isoformat_ascii e)]

theorem from_encoded_encode_pair (tok : List Char) (e : PyDatetime)
    (hascii : tok.all (fun c => c.toNat < 128) = true) (hv : e.IsValid) :
    GoogleCredential.from_encoded (some (b64encodeBytes (e.isoformat.map Char.toNat) ++ ':' ::
      b64encodeBytes (tok.map Char.toNat))) = ⟨some tok, some e⟩ := by
  have hA256 := map_toNat_lt_256 _ (isoformat_ascii e)
  have hB256 := map_toNat_lt_256 _ hascii
  have hAc := colon_not_mem_b64encodeBytes _ hA256
  have hBc := colon_not_mem_b64encodeBytes _ hB256
  rw [GoogleCredential.from_encoded, from_encodedExc]
  rw [if_neg (by simp)]
  rw [pySplit_around_sep ':' _ _ hAc hBc]
  dsimp only
  rw [decodePairExc, pyB64Decode_encode _ hA256]
  dsimp only
  rw [asciiDecode_map_toNat _ (isoformat_ascii e)]
  dsimp only
  rw [parseIso_isoformat e hv]
  dsimp only
  rw [pyB64Decode_encode _ hB256]
  dsimp only
  rw [asciiDecode_map_toNat _ hascii]

/-- A UTC instant used as "now" in concrete scenarios. -/
def now2024 : PyDatetime := ⟨2024, 6, 1, 12, 0, 0, 0, some 0⟩

/-- A UTC expiry far in the future of `now2024`. -/
def expiry2030 : PyDatetime := ⟨2030, 1, 1, 0, 0, 0, 0, some 0⟩

/-- Environment with neither interception variable set. -/
def envDef : Env := ⟨none, none⟩

/-- The default intercepted username. -/
def usrDef : List Char := "oauth2accesstoken".toList

/-- An arbitrary service name. -/
def svcDef : List Char := "registry".toList

def tokXyz : List Char := "tok-xyz".toList

def tokNew : List Char := "tok-new".toList

/-- An encoded record with token `tokXyz`, expiring in 2030. -/
def encGood : List Char :=
  b64encodeBytes (expiry2030.isoformat.map Char.toNat) ++ ':' :: b64encodeBytes (tokXyz.map Char.toNat)

/-- A backend holding `encGood` under every key. -/
def bGood : Backend := ⟨fun _ _ => some encGood, .ok ()⟩

/-- A backend with nothing stored. -/
def bEmpty : Backend := ⟨fun _ _ => none, .ok ()⟩

/-- A backend whose `set_password` raises. -/
def bSetFail : Backend := ⟨fun _ _ => none, .error (.external 7)⟩

/-- A provider whose `google.auth.default()` raises. -/
def pDead : IdentityProvider := ⟨.error (.external 99)⟩

/-- A healthy provider, not expired, holding token `tokNew`. -/
def pFresh : IdentityProvider := ⟨.ok ⟨false, .ok (), some tokNew⟩⟩

/-- A provider that reports success but exposes no token. -/
def pNoTok : IdentityProvider := ⟨.ok ⟨false, .ok (), none⟩⟩

/-- C2: a stored value that decodes to a valid record takes the fast path:
`get` returns the record's token, leaves the store untouched, and the result
does not depend on the identity provider at all. -/
theorem claim2_fast_path (env : Env) (b : Backend) (p : IdentityProvider) (now : PyDatetime)
    (service username : List Char) (cred : GoogleCredential)
    (hint : shouldIntercept env service username = true)
    (hdec : GoogleCredential.from_encoded (b.store service username) = cred)
    (hvalid : cred.valid now = .ok true) :
    get_password env b p now service username = (.ok cred.token, b) := by
  rw [get_password]
  simp only [hint, if_true, hdec, hvalid]

/-- Witness for C2 at concrete inputs. -/
theorem claim2_fast_path_witness :
    get_password envDef bGood pDead now2024 svcDef usrDef = (.ok (some tokXyz), bGood) :=
  claim2_fast_path envDef bGood pDead now2024 svcDef usrDef ⟨some tokXyz, some expiry2030⟩
    (by decide) (by decide) (by decide)

/-- C5: when the stored record is stale and the provider-level refresh fails,
`get` fails with that same error and the storage is left unchanged. -/
theorem claim5_provider_failure (env : Env) (b : Backend) (p : IdentityProvider)
    (now : PyDatetime) (service username : List Char) (e : PyErr)
    (hint : shouldIntercept env service username = true)
    (hstale : (GoogleCredential.from_encoded (b.store service username)).valid now = .ok false)
    (hfail : GoogleCredential.refresh p now = .error e) :
    get_password env b p now service username = (.error e, b) := by
  rw [get_password]
  simp only [hint, if_true, hstale, hfail]

/-- Witness for C5 at concrete inputs. -/
theorem claim5_provider_failure_witness :
    get_password envDef bEmpty pDead now2024 svcDef usrDef = (.error (.external 99), bEmpty) :=
  claim5_provider_failure envDef bEmpty pDead now2024 svcDef usrDef (.external 99)
    (by decide) (by decide) (by decide)

/-- An encoded value whose expiry component is a timezone-NAIVE ISO timestamp. -/
def naiveEnc : List Char :=
  b64encodeBytes ((PyDatetime.isoformat ⟨2030, 1, 1, 0, 0, 0, 0, none⟩).map Char.toNat) ++
    ':' :: b64encodeBytes (['t'].map Char.toNat)

/-- A backend holding `naiveEnc` under every key. -/
def bNaive : Backend := ⟨fun _ _ => some naiveEnc, .ok ()⟩

/-- C10: a well-formed stored value with a naive expiry decodes to a record
with both fields present; evaluating the validity property on it raises
`TypeError` (naive vs aware comparison), and `get` on such a key propagates
that error instead of absorbing it as a decode failure. -/
theorem claim10_naive_expiry :
    GoogleCredential.from_encoded (some naiveEnc) =
      ⟨some ['t'], some ⟨2030, 1, 1, 0, 0, 0, 0, none⟩⟩ ∧
    (GoogleCredential.from_encoded (some naiveEnc)).valid now2024 = .error .typeError ∧
    get_password envDef bNaive pDead now2024 svcDef usrDef = (.error .typeError, bNaive) :=
  ⟨by decide, by decide, rfl⟩

/-- C4 counterexample: with a stale store, a healthy provider and a storage
backend whose write raises, `get` propagates the storage error instead of
returning the freshly obtained token. -/
theorem claim4_counterexample :
    get_password envDef bSetFail pFresh now2024 svcDef usrDef =
      (.error (.external 7), bSetFail) := rfl

/-- C4 (amended): a storage write-back failure is NOT absorbed: `get` raises
the storage backend's error to its caller, and the fresh token is not
returned. -/
theorem claim4_amended (env : Env) (b : Backend) (p : IdentityProvider) (now : PyDatetime)
    (service username : List Char) (creds : ProviderCreds) (t : List Char) (e : PyErr)
    (hint : shouldIntercept env service username = true)
    (hstale : (GoogleCredential.from_encoded (b.store service username)).valid now = .ok false)
    (hdef : p.defaultResult = .ok creds)
    (href : creds.expired = true → creds.refreshResult = .ok ())
    (htok : creds.token = some t)
    (hascii : t.all (fun c => c.toNat < 128) = true)
    (hset : b.setResult = .error e) :
    get_password env b p now service username = (.error e, b) := by
  have hrefresh : GoogleCredential.refresh p now =
      .ok ⟨some t, some (now.addMinutes defaultExpiryMinutes)⟩ := by
    rw [GoogleCredential.refresh, hdef]
    dsimp only
    cases hexp : creds.expired
    · simp only [Bool.false_eq_true, if_false, htok]
    · simp only [if_true, href hexp, htok]
  rw [get_password]
  simp only [hint, if_true, hstale, hrefresh]
  rw [encode_pair t _ hascii]
  dsimp only
  rw [if_pos (by simp)]
  rw [Backend.set_password, hset]

/-- Witness for C4's amended claim at concrete inputs. -/
theorem claim4_amended_witness :
    get_password envDef bSetFail pFresh now2024 svcDef usrDef =
      (.error (.external 7), bSetFail) :=
  claim4_amended envDef bSetFail pFresh now2024 svcDef usrDef ⟨false, .ok (), some tokNew⟩
    tokNew (.external 7) (by decide) (by decide) rfl (by decide) rfl (by decide) rfl

/-- C6 counterexample: with an empty store and a provider that succeeds but
yields no token, `get` does NOT fail: it reports success with an absent token
(`None`), violating the success-implies-token-present invariant. -/
theorem claim6_counterexample :
    get_password envDef bEmpty pNoTok now2024 svcDef usrDef = (.ok none, bEmpty) := rfl

/-- C6 (amended): when the refresh path obtains no usable token from the
provider, `get` returns success with an absent token (no fatal error is
raised, and nothing is written back because encoding an absent token yields
`None`). -/
theorem claim6_amended (env : Env) (b : Backend) (p : IdentityProvider) (now : PyDatetime)
    (service username : List Char) (creds : ProviderCreds)
    (hint : shouldIntercept env service username = true)
    (hstale : (GoogleCredential.from_encoded (b.store service username)).valid now = .ok false)
    (hdef : p.defaultResult = .ok creds)
    (href : creds.expired = true → creds.refreshResult = .ok ())
    (htok : creds.token = none) :
    get_password env b p now service username = (.ok none, b) := by
  have hrefresh : GoogleCredential.refresh p now =
      .ok ⟨none, some (now.addMinutes defaultExpiryMinutes)⟩ := by
    rw [GoogleCredential.refresh, hdef]
    dsimp only
    cases hexp : creds.expired
    · simp only [Bool.false_eq_true, if_false, htok]
    · simp only [if_true, href hexp, htok]
  rw [get_password]
  simp only [hint, if_true, hstale, hrefresh]
  rfl

/-- Witness for C6's amended claim at concrete inputs. -/
theorem claim6_amended_witness :
    get_password envDef bEmpty pNoTok now2024 svcDef usrDef = (.ok none, bEmpty) :=
  claim6_amended envDef bEmpty pNoTok now2024 svcDef usrDef ⟨false, .ok (), none⟩
    (by decide) (by decide) rfl (by decide) rfl

/-- C3: on a cache miss or stale record, `get` builds the new record from the
provider's token with expiry `now + 55 minutes` (independent of any provider
expiry), writes its encoding back to storage, and returns the token. -/
theorem claim3_refresh_path (env : Env) (b : Backend) (p : IdentityProvider) (now : PyDatetime)
    (service username : List Char) (creds : ProviderCreds) (t : List Char)
    (hint : shouldIntercept env service username = true)
    (hstale : (GoogleCredential.from_encoded (b.store service username)).valid now = .ok false)
    (hdef : p.defaultResult = .ok creds)
    (href : creds.expired = true → creds.refreshResult = .ok ())
    (htok : creds.token = some t)
    (hascii : t.all (fun c => c.toNat < 128) = true)
    (hset : b.setResult = .ok ()) :
    ∃ enc, (GoogleCredential.mk (some t) (some (now.addMinutes defaultExpiryMinutes))).encode
        = .ok (some enc) ∧
      get_password env b p now service username =
        (.ok (some t), b.withStored service username enc) := by
  refine ⟨_, encode_pair t _ hascii, ?_⟩
  have hrefresh : GoogleCredential.refresh p now =
      .ok ⟨some t, some (now.addMinutes defaultExpiryMinutes)⟩ := by
    rw [GoogleCredential.refresh, hdef]
    dsimp only
    cases hexp : creds.expired
    · simp only [Bool.false_eq_true, if_false, htok]
    · simp only [if_true, href hexp, htok]
  rw [get_password]
  simp only [hint, if_true, hstale, hrefresh]
  rw [encode_pair t _ hascii]
  dsimp only
  rw [if_pos (by simp)]
  rw [Backend.set_password, hset]

/-- Witness for C3 at concrete inputs. -/
theorem claim3_refresh_path_witness :
    ∃ enc, (GoogleCredential.mk (some tokNew)
        (some (now2024.addMinutes defaultExpiryMinutes))).encode = .ok (some enc) ∧
      get_password envDef bEmpty pFresh now2024 svcDef usrDef =
        (.ok (some tokNew), bEmpty.withStored svcDef usrDef enc) :=
  claim3_refresh_path envDef bEmpty pFresh now2024 svcDef usrDef ⟨false, .ok (), some tokNew⟩
    tokNew (by decide) (by decide) rfl (by decide) rfl (by decide) rfl

theorem decodePairExc_ok_shape (a b : List Char) (c : GoogleCredential)
    (h : decodePairExc a b = .ok c) : ∃ t e, c = ⟨some t, some e⟩ := by
  rw [decodePairExc] at h
  repeat' split at h
  all_goals try exact Except.noConfusion h
  injection h with h
  exact ⟨_, _, h.symm⟩

theorem from_encodedExc_ok_shape (enc : Option (List Char)) (c : GoogleCredential)
    (h : from_encodedExc enc = .ok c) : ∃ t e, c = ⟨some t, some e⟩ := by
  rcases enc with _ | cs
  · rw [from_encodedExc] at h
    exact Except.noConfusion h
  · rw [from_encodedExc] at h
    split at h
    · exact Except.noConfusion h
    · split at h
      · exact decodePairExc_ok_shape _ _ _ h
      · exact Except.noConfusion h

/-- C7: decoding is total (the catch-all handler turns every failure into the
empty record), every decode result either is the empty record or has both
fields present, the two spec examples decode to the empty record, and the
empty record is never valid. -/
theorem claim7_decode_total :
    (∀ enc : Option (List Char), GoogleCredential.from_encoded enc = ⟨none, none⟩ ∨
      ∃ t e, GoogleCredential.from_encoded enc = ⟨some t, some e⟩) ∧
    GoogleCredential.from_encoded none = ⟨none, none⟩ ∧
    GoogleCredential.from_encoded (some "garbage-not-base64".toList) = ⟨none, none⟩ ∧
    (∀ now : PyDatetime, (GoogleCredential.mk none none).valid now = .ok false) := by
  refine ⟨?_, rfl, by decide, fun now => rfl⟩
  intro enc
  rw [GoogleCredential.from_encoded.eq_def]
  rcases hx : from_encodedExc enc with e | c
  · exact Or.inl rfl
  · obtain ⟨t, ex, rfl⟩ := from_encodedExc_ok_shape enc c hx
    exact Or.inr ⟨t, ex, rfl⟩

/-- The C8 counterexample input: a well-formed base64 expiry, then the three
characters `:YQ:` and padding — it contains two colons. -/
def cex8 : List Char :=
  b64encodeBytes ((PyDatetime.isoformat ⟨2024, 1, 1, 0, 0, 0, 0, some 0⟩).map Char.toNat) ++
    (':' :: 'Y' :: 'Q' :: ':' :: '=' :: '=' :: [])

/-- C8 counterexample: on an input with two colons, the code's decode (split
on every colon, require exactly two pieces) yields the empty record, while
the split-at-the-first-colon algorithm the claim describes succeeds (Python's
lenient base64 decoder discards the stray colon), so the two disagree. -/
theorem claim8_counterexample :
    GoogleCredential.from_encoded (some cex8) = ⟨none, none⟩ ∧
    decodeSpec (some cex8) = ⟨some ['a'], some ⟨2024, 1, 1, 0, 0, 0, 0, some 0⟩⟩ ∧
    GoogleCredential.from_encoded (some cex8) ≠ decodeSpec (some cex8) := by
  refine ⟨by decide, by decide, by decide⟩

/-- C8 (amended): the code's decode requires EXACTLY one colon in the input;
on such inputs it agrees with the split-at-the-first-colon algorithm, and on
every other colon count it yields the empty record. -/
theorem claim8_amended (cs : List Char) :
    GoogleCredential.from_encoded (some cs) =
      if cs.count ':' = 1 then decodeSpec (some cs) else ⟨none, none⟩ := by
  by_cases hc : cs.count ':' = 1
  · rw [if_pos hc]
    have hlen : (pySplit ':' cs).length = 2 := by rw [pySplit_length, hc]
    rcases hps : pySplit ':' cs with _ | ⟨a, _ | ⟨b, rest⟩⟩
    · rw [hps] at hlen
      exact absurd hlen (by simp)
    · rw [hps] at hlen
      exact absurd hlen (by simp)
    · have hrest : rest = [] := by
        rw [hps] at hlen
        simp only [List.length_cons] at hlen
        exact List.length_eq_zero.mp (by omega)
      subst hrest
      have hbf := pySplit_pair_breakFirst ':' cs a b hps
      have hne : ¬ cs.isEmpty = true := by
        intro hemp
        rw [List.isEmpty_iff] at hemp
        subst hemp
        simp [pySplit] at hps
      rw [GoogleCredential.from_encoded.eq_def, from_encodedExc, if_neg hne, hps]
      rw [decodeSpec, hbf]
  · rw [if_neg hc]
    by_cases hemp : cs.isEmpty = true
    · rw [List.isEmpty_iff] at hemp
      subst hemp
      rfl
    · have hlen : (pySplit ':' cs).length ≠ 2 := by
        rw [pySplit_length]
        omega
      rw [GoogleCredential.from_encoded.eq_def, from_encodedExc, if_neg hemp]
      rcases hps : pySplit ':' cs with _ | ⟨a, _ | ⟨b, _ | ⟨c3, r⟩⟩⟩
      · rfl
      · rfl
      · rw [hps] at hlen
        exact absurd rfl hlen
      · rfl

/-- The encoded form `<base64(isoformat expiry)>:<base64(token)>` as a single
definition, for stating storage contents compactly. -/
def encPayload (t : List Char) (e : PyDatetime) : List Char :=
  b64encodeBytes (e.isoformat.map Char.toNat) ++ ':' :: b64encodeBytes (t.map Char.toNat)

theorem encPayload_encode (t : List Char) (e : PyDatetime)
    (hascii : t.all (fun c => c.toNat < 128) = true) :
    (GoogleCredential.mk (some t) (some e)).encode = .ok (some (encPayload t e)) := by
  rw [encode_pair t e hascii]
  rfl

theorem encPayload_decode (t : List Char) (e : PyDatetime)
    (hascii : t.all (fun c => c.toNat < 128) = true) (hv : e.IsValid) :
    GoogleCredential.from_encoded (some (encPayload t e)) = ⟨some t, some e⟩ :=
  from_encoded_encode_pair t e hascii hv

/-- C9 counterexample: `put` with a token containing a non-ASCII code point
raises `UnicodeEncodeError` out of `encode` — nothing is stored and no
subsequent `get` can return the token, so the claim fails as universally
stated over token strings. -/
theorem claim9_counterexample :
    set_password envDef bEmpty now2024 svcDef usrDef [Char.ofNat 256] =
      (.error .unicodeEncodeError, bEmpty) := rfl

/-- C9 (amended): for an ASCII token, `put` stores the encoded record with
expiry `now + 55 minutes`, and a `get` performed while that window is still
open returns the token on the fast path, for every identity provider. -/
theorem claim9_put_get (env : Env) (b : Backend) (p : IdentityProvider)
    (now now' : PyDatetime) (service username t : List Char)
    (hint : shouldIntercept env service username = true)
    (hascii : t.all (fun c => c.toNat < 128) = true)
    (hset : b.setResult = .ok ())
    (hv : (now.addMinutes defaultExpiryMinutes).IsValid)
    (hwin : pyGE (now.addMinutes defaultExpiryMinutes) now' = .ok true) :
    ∃ b1, set_password env b now service username t = (.ok (), b1) ∧
      GoogleCredential.from_encoded (b1.store service username) =
        ⟨some t, some (now.addMinutes defaultExpiryMinutes)⟩ ∧
      get_password env b1 p now' service username = (.ok (some t), b1) := by
  have hlen : (encPayload t (now.addMinutes defaultExpiryMinutes)).length > 0 := by
    rw [encPayload]
    simp
  have hsp : set_password env b now service username t =
      (.ok (), b.withStored service username
        (encPayload t (now.addMinutes defaultExpiryMinutes))) := by
    rw [set_password]
    simp only [hint, if_true]
    rw [encPayload_encode t _ hascii]
    dsimp only
    rw [if_pos hlen]
    rw [Backend.set_password, hset]
  have hstore : (b.withStored service username
      (encPayload t (now.addMinutes defaultExpiryMinutes))).store service username =
      some (encPayload t (now.addMinutes defaultExpiryMinutes)) := by
    rw [Backend.withStored]
    dsimp only
    rw [if_pos ⟨rfl, rfl⟩]
  refine ⟨_, hsp, ?_, ?_⟩
  · rw [hstore]
    exact encPayload_decode t _ hascii hv
  · rw [get_password]
    simp only [hint, if_true, hstore]
    rw [encPayload_decode t _ hascii hv]
    have hvalid : (GoogleCredential.mk (some t)
        (some (now.addMinutes defaultExpiryMinutes))).valid now' = .ok true := by
      rw [GoogleCredential.valid]
      exact hwin
    rw [hvalid]

/-- Witness for C9's amended claim at concrete inputs. -/
theorem claim9_put_get_witness :
    ∃ b1, set_password envDef bEmpty now2024 svcDef usrDef tokXyz = (.ok (), b1) ∧
      GoogleCredential.from_encoded (b1.store svcDef usrDef) =
        ⟨some tokXyz, some (now2024.addMinutes defaultExpiryMinutes)⟩ ∧
      get_password envDef b1 pDead now2024 svcDef usrDef = (.ok (some tokXyz), b1) :=
  claim9_put_get envDef bEmpty pDead now2024 now2024 svcDef usrDef tokXyz
    (by decide) (by decide) rfl (by decide) (by decide)

/-- C1 counterexample: the round-trip fails as universally stated, because
`encode` raises `UnicodeEncodeError` on a record whose token contains a
non-ASCII code point, so no encoded form exists for that record at all. -/
theorem claim1_counterexample :
    ¬ (∀ r : GoogleCredential, r.token.isSome = true → r.expiry.isSome = true →
        ∃ s, r.encode = .ok (some s) ∧ GoogleCredential.from_encoded (some s) = r) := by
  intro h
  obtain ⟨s, hs, _⟩ :=
    h ⟨some [Char.ofNat 256], some expiry2030⟩ rfl rfl
  have henc : (GoogleCredential.mk (some [Char.ofNat 256]) (some expiry2030)).encode =
      .error .unicodeEncodeError := by decide
  rw [henc] at hs
  exact Except.noConfusion hs

/-- C1 (amended): for a record with both fields present whose token is pure
ASCII (and whose expiry satisfies the `datetime` constructor invariant, which
every Python datetime does), decoding the encoded form gives back the record. -/
theorem claim1_roundtrip (r : GoogleCredential) (tok : List Char) (e : PyDatetime)
    (ht : r.token = some tok) (he : r.expiry = some e)
    (hascii : tok.all (fun c => c.toNat < 128) = true) (hv : e.IsValid) :
    ∃ s, r.encode = .ok (some s) ∧ GoogleCredential.from_encoded (some s) = r := by
  rcases r with ⟨rt, re⟩
  simp only at ht he
  subst ht
  subst he
  exact ⟨_, encode_pair tok e hascii, from_encoded_encode_pair tok e hascii hv⟩

/-- Witness for C1's amended claim at concrete inputs. -/
theorem claim1_roundtrip_witness :
    ∃ s, (GoogleCredential.mk (some tokXyz) (some expiry2030)).encode = .ok (some s) ∧
      GoogleCredential.from_encoded (some s) =
        ⟨some tokXyz, some expiry2030⟩ :=
  claim1_roundtrip ⟨some tokXyz, some expiry2030⟩ tokXyz expiry2030 rfl rfl
    (by decide) (by decide)
